import Mathlib

/-!
Verification of the `gcode-inject.py` command line utility (repository
Print-and-Place).  The program patches a slicer-produced G-code file,
splicing in motion commands that fill plated through-holes of a printed
circuit board with conductive filament.

Shallow embedding conventions:
* a Python string is modelled as a `List Char` (type `Line`); every textual
  line of a file is one `Line`, without its trailing newline;
* Python floats are modelled as exact rationals `ℚ`;
* fallible Python code (raised exceptions) is modelled with
  `Except String` or `Option`;
* the synthesized fill commands are modelled as an inductive `GLine`
  carrying the numeric fields of each emitted instruction (the textual
  f-string rendering is presentation only);
* the command line / file system wrappers, the external SVG library and
  the JSON metadata parser are out of scope (per the specification they
  are external collaborators); the two bounding-box centres they produce
  enter the model as parameters.
-/

set_option maxRecDepth 4000

/-- A Python string / one line of a text file, without trailing newline. -/
abbrev Line := List Char

/-- Conversion from a Lean string literal to the `Line` model. -/
def strL (s : String) : Line := s.data

/-- Python `str.startswith`: `startsWithL p s` is true when `p` is an initial
run of `s`. -/
def startsWithL : Line → Line → Bool
  | [], _ => true
  | _ :: _, [] => false
  | p :: ps, c :: cs => p == c && startsWithL ps cs

/-- Python `str.strip()`: remove leading and trailing whitespace. -/
def pystrip (s : Line) : Line :=
  ((s.dropWhile Char.isWhitespace).reverse.dropWhile Char.isWhitespace).reverse

/-- Python `str.split(sep)` for a one-character separator: splits at every
occurrence, keeping empty pieces (so `"aYb".split("Y") = ["a", "b"]` and
`"Y".split("Y") = ["", ""]`). -/
def splitOnCharL (sep : Char) : Line → List Line
  | [] => [ [] ]
  | c :: cs =>
    if c == sep then [] :: splitOnCharL sep cs
    else
      match splitOnCharL sep cs with
      | [] => [ [ c ] ]
      | h :: t => (c :: h) :: t

/-- Helper for Python `str.split()` (no argument): split at whitespace. -/
def splitWsL (s : Line) : List Line :=
  ((s.splitOnP Char.isWhitespace).map id).filter (fun w => !w.isEmpty)

/-- All characters are decimal digits. -/
def allDigitsL (s : Line) : Bool := s.all Char.isDigit

/-- Numeric value of a digit run. -/
def digitsToNat (s : Line) : ℕ := s.foldl (fun a c => a * 10 + (c.toNat - 48)) 0

/-- Unsigned part of Python `float(s)`: an optional integer part, an optional
single dot, an optional fractional part, at least one digit in total.  This
models the subset of the `float` grammar exercised by G-code and drill files
(no exponents, no `inf`/`nan`). -/
def pyFloatCore (s : Line) : Option ℚ :=
  match splitOnCharL '.' s with
  | [ intp ] =>
    if !intp.isEmpty && allDigitsL intp then some ((digitsToNat intp : ℚ)) else none
  | [ intp, frac ] =>
    if (!intp.isEmpty || !frac.isEmpty) && allDigitsL intp && allDigitsL frac then
      some ((digitsToNat intp : ℚ) + (digitsToNat frac : ℚ) / (10 ^ frac.length))
    else none
  | _ => none

/-- Python `float(s)`: optional surrounding whitespace, optional sign, then
the unsigned grammar of `pyFloatCore`; `none` models a raised `ValueError`. -/
def pyFloat? (s : Line) : Option ℚ :=
  match pystrip s with
  | '-' :: r => (pyFloatCore r).map (fun q => -q)
  | '+' :: r => pyFloatCore r
  | r => pyFloatCore r

/-- The default drill tool identifier `"T1"`. -/
def pyT1 : Line := strL "T1"

/-- A stripped drill line selects a tool when it starts with `T` and contains
no `C` (tool definition lines such as `T1C0.3` carry a `C`); faithful to
`line.startswith('T') and not 'C' in line` at `gcode-inject.py:102`. -/
def isToolSelLine (l : Line) : Bool := startsWithL (strL "T") l && !(l.contains 'C')

/-- A stripped drill line is a coordinate record when it starts with `X` and
contains a `Y`; faithful to `line.startswith('X') and 'Y' in line` at
`gcode-inject.py:104`. -/
def isCoordLine (l : Line) : Bool := startsWithL (strL "X") l && l.contains 'Y'

/-- Extraction of the two coordinates of a coordinate record, faithful to
`gcode-inject.py:106-109`: split at `Y`, drop the leading `X` of the first
piece, convert both pieces with `float`. -/
def coordOf (line : Line) : Except String (ℚ × ℚ) :=
  match splitOnCharL 'Y' line with
  | p0 :: p1 :: _ =>
    (match pyFloat? (p0.drop 1) with
     | none => .error "ValueError: could not convert string to float"
     | some x =>
       match pyFloat? p1 with
       | none => .error "ValueError: could not convert string to float"
       | some y => .ok (x, y))
  | _ => .error "IndexError: list index out of range"

/-- Loop of `parse_drill_file` (`gcode-inject.py:96-110`): walk the lines,
tracking the current tool (initially `None`); a tool-select line updates it;
a coordinate record is emitted when the current tool equals the requested
tool.  Emission order is stream order; a float conversion failure aborts. -/
def parse_drill_aux (tool : Line) : List Line → Option Line → Except String (List (ℚ × ℚ))
  | [], _ => .ok []
  | l :: ls, current_tool =>
    let line := pystrip l
    let ct := if isToolSelLine line then some line else current_tool
    if isCoordLine line && ct == some tool then
      match coordOf line with
      | .error e => .error e
      | .ok p =>
        match parse_drill_aux tool ls ct with
        | .error e => .error e
        | .ok rest => .ok (p :: rest)
    else parse_drill_aux tool ls ct

/-- `parse_drill_file` of `gcode-inject.py:96-110`; the tool argument
defaults to `"T1"` exactly as in the source. -/
def parse_drill_file (lines : List Line) (tool : Line := pyT1) : Except String (List (ℚ × ℚ)) :=
  parse_drill_aux tool lines none

/-- A section record `(name, start_line, end_line)` as built by
`get_gcode_sections`. -/
abbrev GSection := Line × ℕ × ℕ

/-- The `;TYPE:` phase-marker introducer. -/
def pyTypeMark : Line := strL ";TYPE:"

/-- A raw line declares a process-phase marker (`gcode-inject.py:119`). -/
def isTypeLine (l : Line) : Bool := startsWithL pyTypeMark l

/-- The section name carried by a marker line: `line.split(':')[1].strip()`
(`gcode-inject.py:121`). -/
def sectionName (l : Line) : Line := pystrip ((splitOnCharL ':' l).getD 1 [])

/-- Loop of `get_gcode_sections` (`gcode-inject.py:112-125`); arguments are
the remaining lines, the current section name, its start line and the index
of the next line.  On a marker line the section being built is closed with
end line equal to the marker index, and the next section starts at the
following index; after the loop the open section is closed at the last
index of the stream (`i - 1` because the counter has moved past the end). -/
def sectionsAux : List Line → Line → ℕ → ℕ → List GSection
  | [], cs, csl, i => [ (cs, csl, i - 1) ]
  | l :: ls, cs, csl, i =>
    if isTypeLine l then (cs, csl, i) :: sectionsAux ls (sectionName l) (i + 1) (i + 1)
    else sectionsAux ls cs csl (i + 1)

/-- `get_gcode_sections` of `gcode-inject.py:112-125`.  On an empty stream
the Python loop never binds `i` and the trailing `sections.append` raises
`NameError`; this is modelled by `none`. -/
def get_gcode_sections : List Line → Option (List GSection)
  | [] => none
  | l :: ls => some (sectionsAux (l :: ls) (strL "Header") 0 0)

/-- `get_tool_changes` of `gcode-inject.py:127-133`: every line starting
with `T`, with its index and its stripped text, in stream order. -/
def get_tool_changes_aux : ℕ → List Line → List (ℕ × Line)
  | _, [] => []
  | i, l :: ls =>
    if startsWithL (strL "T") l then (i, pystrip l) :: get_tool_changes_aux (i + 1) ls
    else get_tool_changes_aux (i + 1) ls

/-- `get_tool_changes` of `gcode-inject.py:127-133`. -/
def get_tool_changes (lines : List Line) : List (ℕ × Line) := get_tool_changes_aux 0 lines

/-- A tool pose: the last seen X, Y and Z values, each `none` until a motion
instruction supplies it. -/
abbrev Pose := Option ℚ × Option ℚ × Option ℚ

/-- Inner loop of `get_last_coords` (`gcode-inject.py:141-148`): scan the
whitespace-separated parts of one motion line, overwriting the axis a part
addresses; a part whose remainder is not a parseable float models the raised
`ValueError`. -/
def axes_update : List Line → Pose → Except String Pose
  | [], st => .ok st
  | p :: ps, st =>
    if startsWithL (strL "X") p then
      match pyFloat? (p.drop 1) with
      | none => .error "ValueError: could not convert string to float"
      | some v => axes_update ps (some v, st.2.1, st.2.2)
    else if startsWithL (strL "Y") p then
      match pyFloat? (p.drop 1) with
      | none => .error "ValueError: could not convert string to float"
      | some v => axes_update ps (st.1, some v, st.2.2)
    else if startsWithL (strL "Z") p then
      match pyFloat? (p.drop 1) with
      | none => .error "ValueError: could not convert string to float"
      | some v => axes_update ps (st.1, st.2.1, some v)
    else axes_update ps st

/-- A raw line is a movement command scanned by `get_last_coords`
(`gcode-inject.py:140`): it starts with `G0` or `G1`. -/
def line_is_motion (l : Line) : Bool :=
  startsWithL (strL "G0") l || startsWithL (strL "G1") l

/-- Outer loop of `get_last_coords` (`gcode-inject.py:136-151`): only lines
starting with `G0` or `G1` are scanned. -/
def get_last_coords_aux : List Line → Pose → Except String Pose
  | [], st => .ok st
  | l :: ls, st =>
    if line_is_motion l then
      match axes_update (splitWsL l) st with
      | .error e => .error e
      | .ok st2 => get_last_coords_aux ls st2
    else get_last_coords_aux ls st

/-- `get_last_coords` of `gcode-inject.py:136-151`. -/
def get_last_coords (lines : List Line) : Except String Pose :=
  get_last_coords_aux lines (none, none, none)

/-- One synthesized G-code instruction, carrying the numeric fields of the
f-strings emitted by `generate_gcode_for_holes`; the textual rendering
(spacing, decimal formatting) is presentation only.  `g0xy` carries optional
coordinates because Python happily formats `None` into the f-string of
`gcode-inject.py:182` when the origin X or Y was never seen. -/
inductive GLine
  | m104 (s : ℚ)
  | g0z (z : ℚ)
  | g0xyz (x y z : ℚ)
  | g0xy (x y : Option ℚ)
  | g1e (e : ℚ)
  | g4 (p : ℚ)
deriving DecidableEq

/-- The per-hole body of the loop at `gcode-inject.py:162-180`: move above
the hole, descend to `z - 0.05`, un-retract, extrude, dwell, retract, dwell,
shift 1mm right, rise back. -/
def hole_block (z mah ea ra : ℚ) (h : ℚ × ℚ) : List GLine :=
  [ GLine.g0xyz h.1 h.2 mah,
    GLine.g0z (z - 5/100),
    GLine.g1e ra,
    GLine.g1e ea,
    GLine.g4 1000,
    GLine.g1e (-ra),
    GLine.g4 1000,
    GLine.g0xy (some (h.1 + 1)) (some h.2),
    GLine.g0z mah ]

/-- Concatenated hole blocks, in input order. -/
def fill_body (z mah ea ra : ℚ) : List (ℚ × ℚ) → List GLine
  | [] => []
  | h :: hs => hole_block z mah ea ra h ++ fill_body z mah ea ra hs

/-- `generate_gcode_for_holes` of `gcode-inject.py:153-189`.  When the pose
carries no Z value the very first statement `move_above_height = 5 + z`
raises `TypeError` in Python, modelled by `none`.  The Python loop variables
`x, y` shadow the unpacked origin `x, y`, so the trailing
`G0 X{x} Y{y} F4200` of line 182 targets the LAST HOLE when `holes` is
non-empty and the origin only when `holes` is empty; `final_xy` reproduces
that shadowing exactly. -/
def generate_gcode_for_holes (holes : List (ℚ × ℚ)) (last_pos : Pose)
    (extrusion_amount : ℚ := 48/100) (retraction_amount : ℚ := 15/2) : Option (List GLine) :=
  match last_pos.2.2 with
  | none => none
  | some z =>
    let move_above_height := 5 + z
    let final_xy : Option ℚ × Option ℚ :=
      match holes.getLast? with
      | some h => (some h.1, some h.2)
      | none => (last_pos.1, last_pos.2.1)
    some ([ GLine.m104 240, GLine.g0z move_above_height ]
      ++ fill_body z move_above_height extrusion_amount retraction_amount holes
      ++ [ GLine.g0xy final_xy.1 final_xy.2, GLine.g0z z, GLine.m104 220 ])

/-- Floor of a rational, computed from its normalized fraction. -/
def floorQ (q : ℚ) : ℤ := q.num.fdiv q.den

/-- Round-half-to-even to an integer, the rounding Python `round` uses. -/
def roundHalfEven (q : ℚ) : ℤ :=
  let f := floorQ q
  let r := q - f
  if r < 1/2 then f
  else if 1/2 < r then f + 1
  else if f % 2 = 0 then f else f + 1

/-- Python `round(q, 2)` on exact values: round-half-to-even at two decimal
places. -/
def round2 (q : ℚ) : ℚ := (roundHalfEven (q * 100) : ℚ) / 100

/-- The offset-and-round step of `main` (`gcode-inject.py:206-213`): the
centre delta is the G-code centre minus the design centre, and each hole is
moved by the delta plus the documented extra `2 * design_centre.y` on the Y
axis, then rounded to two decimals. -/
def translate_holes (holes : List (ℚ × ℚ)) (design_centre gcode_centre : ℚ × ℚ) :
    List (ℚ × ℚ) :=
  let centre_delta := (gcode_centre.1 - design_centre.1, gcode_centre.2 - design_centre.2)
  holes.map (fun h =>
    (round2 (h.1 + centre_delta.1), round2 (h.2 + centre_delta.2 + 2 * design_centre.2)))

/-- Python `list.insert(i, a)` for a non-negative index: insert before
position `i`, clamping to the end when `i` exceeds the length. -/
def pyInsertAt (l : List Line) (i : ℕ) (a : Line) : List Line :=
  l.take i ++ a :: l.drop i

/-- The filament-change pause directive inserted at `gcode-inject.py:250`. -/
def pyM600 : Line := strL "M600"

/-- The motion-completion barrier inserted at `gcode-inject.py:251`. -/
def pyM400 : Line := strL "M400"

/-- The head/tail split and reassembly of `main` (`gcode-inject.py:239-254`)
with the synthesized fill sequence abstracted as a line list: split after the
insertion point, insert `M600` and `M400` right after the tool-change line,
and concatenate head, fill and tail. -/
def spliceMain (lines : List Line) (tool_change insertion_point : ℕ) (fill : List Line) :
    List Line :=
  let head := lines.take (insertion_point + 1)
  let tail := lines.drop (insertion_point + 1)
  pyInsertAt (pyInsertAt head (tool_change + 1) pyM600) (tool_change + 2) pyM400 ++ fill ++ tail

/-- The `splice` operation of specification section 4.5, the splicing of
`main` (`gcode-inject.py:239-254`) with the two hard-coded pause lines and
the synthesized fill sequence generalized to parameters `pauseCommands` and
`fillCommands`: insert the pause commands right after the tool-change line
of the head, and the fill commands right after the head. -/
def splice (lines : List Line) (tool_change insertion_point : ℕ)
    (pauseCommands fillCommands : List Line) : List Line :=
  let head := lines.take (insertion_point + 1)
  let tail := lines.drop (insertion_point + 1)
  (head.take (tool_change + 1) ++ pauseCommands ++ head.drop (tool_change + 1))
    ++ fillCommands ++ tail

/-- The tool-change count validation of `main` (`gcode-inject.py:221-226`):
the exact `if`/`elif` chain with its three distinct error messages. -/
def validate_tool_count (n : ℕ) : Except String Unit :=
  if n < 1 then .error "No tool changes found in the input G-code file"
  else if n = 1 then
    .error "Only one tool change found in the input G-code file. At least two tools are required."
  else if n > 2 then
    .error "More than two tool changes found in the input G-code file. Only two tool changes are supported at the moment."
  else .ok ()

/-- The wipe-tower section name compared at `gcode-inject.py:231`. -/
def pyWipeTower : Line := strL "Wipe tower"

/-- The predicate of the generator expression at `gcode-inject.py:231`: a
section named `Wipe tower` starting strictly after the tool-change line. -/
def wipe_pred (tool_change : ℕ) (s : GSection) : Bool :=
  s.1 == pyWipeTower && decide (tool_change < s.2.1)

/-- Lines 231 to 236 of `gcode-inject.py`: look for the first wipe-tower
section after the tool change (`next(...)` over the section list) and take
its end line as the insertion point; absence raises `ValueError`. -/
def locate_insertion (sections : List GSection) (tool_change : ℕ) : Except String ℕ :=
  match sections.find? (wipe_pred tool_change) with
  | none => .error "No wipe tower section found after the tool change"
  | some w => .ok w.2.2

/-- The output assembled by `main`: the head lines with the pause commands
inserted, the synthesized fill sequence, and the tail lines; `write_gcode`
writes exactly the concatenation of the three. -/
abbrev MainOut := List Line × List GLine × List Line

/-- Lines 239 to 254 of `gcode-inject.py`: split the stream after the
insertion point, derive the last pose from the head, synthesize the fill
sequence, insert `M600` and `M400` after the tool-change line, and assemble
the output. -/
def after_insertion (lines : List Line) (holes : List (ℚ × ℚ)) (tool_change ip : ℕ) :
    Except String MainOut :=
  let head := lines.take (ip + 1)
  let tail := lines.drop (ip + 1)
  match get_last_coords head with
  | .error e => .error e
  | .ok last_coords =>
    match generate_gcode_for_holes holes last_coords with
    | none => .error "TypeError: unsupported operand type for +: int and NoneType"
    | some hole_gcode =>
      .ok (pyInsertAt (pyInsertAt head (tool_change + 1) pyM600) (tool_change + 2) pyM400,
        hole_gcode, tail)

/-- The orchestrator `main` (`gcode-inject.py:197-259`) from the point where
the two bounding-box centres are known (their computation wraps the external
SVG library and the JSON metadata line, out of scope per the specification):
parse the drill file with the default tool, translate the holes, index the
stream, validate the tool-change count, take the second tool change, locate
the insertion point and assemble the output.  Any raised error yields
`Except.error` and no output is produced. -/
def main_core (lines : List Line) (design_centre gcode_centre : ℚ × ℚ) (drill : List Line) :
    Except String MainOut :=
  match parse_drill_file drill with
  | .error e => .error e
  | .ok holes0 =>
    let holes := translate_holes holes0 design_centre gcode_centre
    match get_gcode_sections lines with
    | none => .error "NameError: name i is not defined"
    | some sections =>
      let tool_changes := get_tool_changes lines
      match validate_tool_count tool_changes.length with
      | .error e => .error e
      | .ok _ =>
        match tool_changes.get? 1 with
        | none => .error "IndexError: list index out of range"
        | some tc =>
          match locate_insertion sections tc.1 with
          | .error e => .error e
          | .ok ip => after_insertion lines holes tc.1 ip

/-- Specification-side predicate of claim C3, first half: consecutive
sections have the end line of one EQUAL to the start line of the next. -/
def sec_ends_meet_starts : List GSection → Bool
  | s1 :: s2 :: t => (s1.2.2 == s2.2.1) && sec_ends_meet_starts (s2 :: t)
  | _ => true

/-- Sections appear in strict start order. -/
def sec_starts_ordered : List GSection → Bool
  | s1 :: s2 :: t => decide (s1.2.1 < s2.2.1) && sec_starts_ordered (s2 :: t)
  | _ => true

/-- Amended adjacency for claim C3: the end line of a section is exactly one
less than the start line of the next section, and the line at that end index
is the phase-marker line, so under the exclusive-end reading the marker
belongs to neither section. -/
def sec_marker_gap (lines : List Line) : List GSection → Bool
  | s1 :: s2 :: t =>
    (s1.2.2 + 1 == s2.2.1) &&
    (match lines.get? s1.2.2 with
     | some l => isTypeLine l
     | none => false) &&
    sec_marker_gap lines (s2 :: t)
  | _ => true

/-- Specification-side current-tool update of the drill protocol (claim C7,
spec section 4.2): a tool-select record replaces the current tool, any other
record leaves it unchanged. -/
def active_tool_step (ct : Option Line) (l : Line) : Option Line :=
  if isToolSelLine (pystrip l) then some (pystrip l) else ct

/-- Modelled from the spec words of section 4.2 for claim C7: the coordinate
records of the stream whose active tool — the fold of `active_tool_step`
over the prefix up to and including that record, starting from `ct0` (`none`
for a fresh stream: no tool selected yet) — equals the requested tool,
listed in stream order, without reordering or deduplication. -/
def selected_coord_lines (tool : Line) (ct0 : Option Line) (lines : List Line) : List Line :=
  (List.range lines.length).filterMap (fun i =>
    match lines.get? i with
    | none => none
    | some l =>
      if isCoordLine (pystrip l) && ((lines.take (i + 1)).foldl active_tool_step ct0 == some tool)
      then some (pystrip l) else none)

/-- Error-propagating map: convert every selected record, failing at the
first conversion error, like the sequential `float` calls of the parser. -/
def mapExcept {α β : Type} (f : α → Except String β) : List α → Except String (List β)
  | [] => .ok []
  | a :: xs =>
    match f a with
    | .error e => .error e
    | .ok b =>
      match mapExcept f xs with
      | .error e => .error e
      | .ok bs => .ok (b :: bs)

/-- One line of the concrete end-to-end scenario stream of claims C2 and C6:
tool changes at lines 10 and 40, a wipe-tower phase marker at line 44 (so
the wipe-tower section starts at line 45), a further phase marker at line
48 closing the wipe-tower section, ordinary motion lines elsewhere. -/
def exLine (i : ℕ) : Line :=
  if i = 10 then strL "T0"
  else if i = 40 then strL "T1"
  else if i = 44 then strL ";TYPE:Wipe tower"
  else if i = 48 then strL ";TYPE:Custom"
  else strL "G1 X1 Y1 Z1"

/-- The concrete 50-line scenario stream of claims C2 and C6. -/
def exStream : List Line := (List.range 50).map exLine

/-- The section list the indexer produces for `exStream`. -/
def exSections : List GSection :=
  [ (strL "Header", 0, 44), (strL "Wipe tower", 45, 48), (strL "Custom", 49, 49) ]

/-- A minimal three-line stream with one phase marker, for claim C3. -/
def linesABF : List Line := [ strL "a", strL ";TYPE:Foo", strL "b" ]

/-- The section list the indexer produces for `linesABF`. -/
def sectionsABF : List GSection := [ (strL "Header", 0, 1), (strL "Foo", 2, 2) ]

/-- Sanity check: a coordinate before any tool select is dropped, `T2`
coordinates are dropped, `T1` coordinates are kept in order. -/
example :
    parse_drill_file
      [ strL "X9Y9", strL "T1", strL "X1.5Y2", strL "T2", strL "X3Y4", strL "T1", strL "X5Y6" ] =
      .ok [ (3/2, 2), (5, 6) ] := by
  simp +decide [parse_drill_file, parse_drill_aux, pystrip, isToolSelLine, isCoordLine, coordOf,
    splitOnCharL, pyFloat?, pyFloatCore, pyT1, strL, startsWithL, allDigitsL, digitsToNat]
  norm_num

example :
    get_gcode_sections [ strL "a", strL ";TYPE:Foo", strL "b" ] =
      some [ (strL "Header", 0, 1), (strL "Foo", 2, 2) ] := by
  simp +decide [get_gcode_sections, sectionsAux, isTypeLine, sectionName, pyTypeMark,
    pystrip, splitOnCharL, strL, startsWithL]

example :
    get_last_coords [ strL "G1 X1 Y2 Z3", strL "M104 S200", strL "G0 Z7.5" ] =
      .ok (some 1, some 2, some (15/2)) := by
  simp +decide [get_last_coords, get_last_coords_aux, axes_update, splitWsL, pyFloat?,
    pyFloatCore, pystrip, splitOnCharL, strL, startsWithL, allDigitsL, digitsToNat]
  norm_num

/-- C8: splicing with an empty pause-command sequence and an empty
fill-command sequence is the identity on the stream: the head/tail split
followed by concatenation with nothing inserted reproduces every line in
place. -/
theorem spec_c8_empty_splice_id (lines : List Line) (tool_change insertion_point : ℕ) :
    splice lines tool_change insertion_point [] [] = lines := by
  simp only [splice, List.append_nil, List.nil_append, List.take_append_drop]

/-- C4: with a drawing centre of (10, 10), a G-code footprint centre of
(15, 12) and one hole at (2, 2), the offset-and-round step yields exactly
(7, 24); the components agree with x + (15 - 10) and
y + (12 - 10) + 2 * 10. -/
theorem spec_c4_offset_example :
    translate_holes [ (2, 2) ] (10, 10) (15, 12) = [ ((7 : ℚ), (24 : ℚ)) ] ∧
    (7 : ℚ) = 2 + (15 - 10) ∧ (24 : ℚ) = 2 + (12 - 10) + 2 * 10 := by
  refine ⟨?_, by norm_num, by norm_num⟩
  norm_num [translate_holes, round2, roundHalfEven, floorQ]

/-- C1 (claim is right, code has a slip): evaluation of the fill
synthesizer at holes = [(5, 6)] and origin pose (1, 2, 3).  The sequence
ends with a lateral move to (5, 6) — the LAST HOLE, because the Python loop
variables `x, y` shadow the unpacked origin — followed by the vertical move
to the origin Z; the code comment (move back to the last x, y position) and
the specification both promise a lateral return to the origin (1, 2), so
the net displacement is not zero. -/
theorem spec_c1_shadowed_return_eval :
    generate_gcode_for_holes [ (5, 6) ] (some 1, some 2, some 3) =
      some [ GLine.m104 240, GLine.g0z 8,
             GLine.g0xyz 5 6 8, GLine.g0z (59/20), GLine.g1e (15/2), GLine.g1e (12/25),
             GLine.g4 1000, GLine.g1e (-(15/2)), GLine.g4 1000,
             GLine.g0xy (some 6) (some 6), GLine.g0z 8,
             GLine.g0xy (some 5) (some 6), GLine.g0z 3, GLine.m104 220 ] ∧
    ((some (5 : ℚ), some (6 : ℚ)) ≠ (some (1 : ℚ), some (2 : ℚ))) := by
  constructor
  · simp [generate_gcode_for_holes, fill_body, hole_block]
    norm_num
  · norm_num

/-- C9: the orchestrator consumes the drill stream only through
`parse_drill_file` at the fixed default tool `"T1"`: two drill streams with
the same `T1` parse give identical pipeline results, whatever the G-code
stream and centres are.  `main_core` has no tool parameter at all, matching
the command line, which exposes none. -/
theorem spec_c9_tool_fixed_t1 (lines d1 d2 : List Line) (dc gc : ℚ × ℚ)
    (h : parse_drill_file d1 pyT1 = parse_drill_file d2 pyT1) :
    main_core lines dc gc d1 = main_core lines dc gc d2 := by
  unfold main_core
  rw [h]

/-- Witness for C9 at concrete inputs: a drill stream whose only hole
belongs to tool `T2` parses (for `T1`) like the empty stream, so the
pipeline cannot distinguish them. -/
theorem spec_c9_witness :
    parse_drill_file [ strL "T2", strL "X1Y1" ] pyT1 = parse_drill_file [] pyT1 ∧
    main_core [ strL "G1" ] (0, 0) (0, 0) [ strL "T2", strL "X1Y1" ] =
      main_core [ strL "G1" ] (0, 0) (0, 0) [] :=
  ⟨ rfl, spec_c9_tool_fixed_t1 _ _ _ _ _ rfl ⟩

/-- Counterexample for C2 as stated: in the scenario stream (tool changes
at lines 10 and 40, wipe-tower section starting at line 45, section end at
line 48), the spliced output does NOT contain the pause directive
immediately after line 10 — position 11 of the output still holds the
original line 11 — while the pause directive in fact sits immediately after
line 40, at output position 41. -/
theorem spec_c2_cex_pause_not_after_line10 :
    (spliceMain exStream 40 48 []).get? 11 = some (strL "G1 X1 Y1 Z1") ∧
    strL "G1 X1 Y1 Z1" ≠ pyM600 ∧
    (spliceMain exStream 40 48 []).get? 41 = some pyM600 := by
  refine ⟨by decide, by decide, by decide⟩

/-- C2 (amended): in the scenario stream, the indexer reports the two tool
changes at lines 10 and 40 and the wipe-tower section (45, 48); the chosen
tool-change line is the SECOND one (line 40, `tool_changes[1]` in `main`),
the insertion point is the wipe section end line 48, and for every fill
sequence the spliced output is: lines 0..40 unchanged, the two pause
directives, lines 41..48 unchanged, the fill sequence, then lines 49..
unchanged — so all original lines keep their relative order. -/
theorem spec_c2_amended_pause_after_second_change :
    get_tool_changes exStream = [ (10, strL "T0"), (40, strL "T1") ] ∧
    get_gcode_sections exStream = some exSections ∧
    locate_insertion exSections 40 = .ok 48 ∧
    ∀ fill : List Line,
      spliceMain exStream 40 48 fill =
        exStream.take 41 ++ pyM600 :: pyM400 ::
          ((exStream.drop 41).take 8 ++ (fill ++ exStream.drop 49)) := by
  refine ⟨by decide, by decide, rfl, fun fill => rfl⟩

/-- A successful `List.find?` returns the FIRST element satisfying the
predicate: some position holds the result, and every earlier position
fails the predicate. -/
theorem list_find_first_spec {α : Type} (p : α → Bool) :
    ∀ (l : List α) (a : α), l.find? p = some a →
      ∃ i, l.get? i = some a ∧ p a = true ∧
        ∀ j, j < i → ∀ b, l.get? j = some b → p b = false := by
  intro l
  induction l with
  | nil => intro a h; simp [List.find?] at h
  | cons x xs ih =>
    intro a h
    by_cases hp : p x = true
    · rw [List.find?_cons_of_pos _ hp] at h
      obtain rfl : x = a := by simpa using h
      exact ⟨0, rfl, hp, fun j hj => absurd hj (Nat.not_lt_zero j)⟩
    · rw [List.find?_cons_of_neg _ (by simpa using hp)] at h
      obtain ⟨i, hi, hpa, hj⟩ := ih a h
      refine ⟨i + 1, by simpa using hi, hpa, ?_⟩
      intro j hjlt b hb
      cases j with
      | zero =>
        obtain rfl : x = b := by simpa using hb
        simpa using hp
      | succ j =>
        exact hj j (by omega) b (by simpa using hb)

/-- C5: once the drill parse and the section scan have succeeded, the
tool-change count drives validation: counts 0, 1 and more than 2 each
abort the pipeline with their own distinct error and no output is
assembled, while a count of exactly 2 passes validation and the pipeline
continues with the remaining stages. -/
theorem spec_c5_tool_count_validation (lines drill : List Line) (dc gc : ℚ × ℚ)
    (hs : List (ℚ × ℚ)) (ss : List GSection)
    (h1 : parse_drill_file drill = .ok hs)
    (h2 : get_gcode_sections lines = some ss) :
    ((get_tool_changes lines).length = 0 →
      main_core lines dc gc drill = .error "No tool changes found in the input G-code file") ∧
    ((get_tool_changes lines).length = 1 →
      main_core lines dc gc drill =
        .error "Only one tool change found in the input G-code file. At least two tools are required.") ∧
    (2 < (get_tool_changes lines).length →
      main_core lines dc gc drill =
        .error "More than two tool changes found in the input G-code file. Only two tool changes are supported at the moment.") ∧
    ((get_tool_changes lines).length = 2 →
      validate_tool_count (get_tool_changes lines).length = .ok () ∧
      main_core lines dc gc drill =
        (match (get_tool_changes lines).get? 1 with
         | none => .error "IndexError: list index out of range"
         | some tc =>
           match locate_insertion ss tc.1 with
           | .error e => .error e
           | .ok ip => after_insertion lines (translate_holes hs dc gc) tc.1 ip)) := by
  refine ⟨?_, ?_, ?_, ?_⟩
  · intro h
    simp [main_core, h1, h2, validate_tool_count, h]
  · intro h
    simp [main_core, h1, h2, validate_tool_count, h]
  · intro h
    have h0 : ¬ ((get_tool_changes lines).length < 1) := by omega
    have h1' : ¬ ((get_tool_changes lines).length = 1) := by omega
    simp [main_core, h1, h2, validate_tool_count, h0, h1', h]
  · intro h
    have hv : validate_tool_count (get_tool_changes lines).length = .ok () := by
      simp [validate_tool_count, h]
    refine ⟨hv, ?_⟩
    simp [main_core, h1, h2, hv]

/-- Witness for C5 at a concrete stream with zero tool changes: the
hypotheses hold and the pipeline aborts with the zero-count error. -/
theorem spec_c5_witness :
    parse_drill_file [] = .ok [] ∧
    get_gcode_sections [ strL "; header", strL "G1 Z1" ] = some [ (strL "Header", 0, 1) ] ∧
    main_core [ strL "; header", strL "G1 Z1" ] (0, 0) (0, 0) [] =
      .error "No tool changes found in the input G-code file" :=
  ⟨ rfl, by decide,
    (spec_c5_tool_count_validation [ strL "; header", strL "G1 Z1" ] [] (0, 0) (0, 0)
      [] [ (strL "Header", 0, 1) ] rfl (by decide)).1 (by decide) ⟩

/-- C6: for a stream with exactly two tool changes (and successful earlier
stages), the pipeline reduces to the wipe-section lookup keyed on the
SECOND tool-change line; when the lookup succeeds the chosen insertion
point is the end line of the first section named `Wipe tower` whose start
line strictly exceeds that tool-change line (first in start order, since
the section list is scanned in order), and when no such section exists the
pipeline aborts with the wipe-tower error and assembles no output. -/
theorem spec_c6_insertion_point (lines drill : List Line) (dc gc : ℚ × ℚ)
    (hs : List (ℚ × ℚ)) (ss : List GSection) (t0 t1 : ℕ × Line)
    (h1 : parse_drill_file drill = .ok hs)
    (h2 : get_gcode_sections lines = some ss)
    (h3 : get_tool_changes lines = [ t0, t1 ]) :
    main_core lines dc gc drill =
      (match locate_insertion ss t1.1 with
       | .error e => .error e
       | .ok ip => after_insertion lines (translate_holes hs dc gc) t1.1 ip) ∧
    (∀ w, ss.find? (wipe_pred t1.1) = some w →
      locate_insertion ss t1.1 = .ok w.2.2 ∧
      ∃ i, ss.get? i = some w ∧ wipe_pred t1.1 w = true ∧
        ∀ j, j < i → ∀ s, ss.get? j = some s → wipe_pred t1.1 s = false) ∧
    (ss.find? (wipe_pred t1.1) = none →
      main_core lines dc gc drill = .error "No wipe tower section found after the tool change") := by
  have hmain : main_core lines dc gc drill =
      (match locate_insertion ss t1.1 with
       | .error e => .error e
       | .ok ip => after_insertion lines (translate_holes hs dc gc) t1.1 ip) := by
    simp [main_core, h1, h2, h3, validate_tool_count]
  refine ⟨hmain, ?_, ?_⟩
  · intro w hw
    refine ⟨by simp [locate_insertion, hw], ?_⟩
    exact list_find_first_spec (wipe_pred t1.1) ss w hw
  · intro hnone
    rw [hmain]
    simp [locate_insertion, hnone]

/-- Witness for C6 at the concrete scenario stream: its two tool changes,
the successful wipe-tower lookup after line 40 and the resulting insertion
point 48. -/
theorem spec_c6_witness :
    parse_drill_file [] = .ok [] ∧
    get_gcode_sections exStream = some exSections ∧
    get_tool_changes exStream = [ (10, strL "T0"), (40, strL "T1") ] ∧
    exSections.find? (wipe_pred 40) = some (strL "Wipe tower", 45, 48) ∧
    locate_insertion exSections 40 = .ok 48 :=
  ⟨ rfl, by decide, by decide, by decide,
    ((spec_c6_insertion_point exStream [] (0, 0) (0, 0) [] exSections
        (10, strL "T0") (40, strL "T1") rfl (by decide) (by decide)).2.1
      (strL "Wipe tower", 45, 48) (by decide)).1 ⟩

/-- Invariant of the section-scanning loop: starting a scan at index `i`
over the rest of the stream (with the open section starting at
`csl ≤ i`), the produced record list opens with the open section, its
starts are strictly increasing, and every adjacent pair is separated by
exactly the phase-marker line: the end of one section is the marker index,
one less than the start of the next. -/
theorem sectionsAux_invariant (fullLines : List Line) :
    ∀ (ls : List Line) (cs : Line) (csl i : ℕ),
      fullLines.drop i = ls → csl ≤ i →
      ∃ e, (sectionsAux ls cs csl i).head? = some (cs, csl, e) ∧ i ≤ e + 1 ∧
        sec_starts_ordered (sectionsAux ls cs csl i) = true ∧
        sec_marker_gap fullLines (sectionsAux ls cs csl i) = true := by
  intro ls
  induction ls with
  | nil =>
    intro cs csl i hdrop hle
    exact ⟨i - 1, rfl, by omega, rfl, rfl⟩
  | cons l ls ih =>
    intro cs csl i hdrop hle
    have hdrop2 : fullLines.drop (i + 1) = ls := by
      have h1 : (fullLines.drop i).drop 1 = fullLines.drop (i + 1) := by
        rw [List.drop_drop]
      rw [hdrop] at h1
      simpa using h1.symm
    have hget : fullLines[i]? = some l := by
      have h0 : (fullLines.drop i)[0]? = some l := by rw [hdrop]; simp
      rw [List.getElem?_drop] at h0
      simpa using h0
    by_cases hm : isTypeLine l = true
    · obtain ⟨e, hhead, hee, hord, hgap⟩ :=
        ih (sectionName l) (i + 1) (i + 1) hdrop2 (le_refl _)
      have hunfold : sectionsAux (l :: ls) cs csl i =
          (cs, csl, i) :: sectionsAux ls (sectionName l) (i + 1) (i + 1) := by
        simp [sectionsAux, hm]
      obtain ⟨r2, t, hrt⟩ : ∃ r2 t, sectionsAux ls (sectionName l) (i + 1) (i + 1) = r2 :: t := by
        cases hr : sectionsAux ls (sectionName l) (i + 1) (i + 1) with
        | nil => rw [hr] at hhead; simp at hhead
        | cons r2 t => exact ⟨r2, t, rfl⟩
      have hr2 : r2 = (sectionName l, i + 1, e) := by
        rw [hrt] at hhead
        simpa using hhead
      refine ⟨i, ?_, by omega, ?_, ?_⟩
      · rw [hunfold]; rfl
      · rw [hunfold, hrt, hr2]
        rw [hrt, hr2] at hord
        simp [sec_starts_ordered, hord]
        omega
      · rw [hunfold, hrt, hr2]
        rw [hrt, hr2] at hgap
        simp [sec_marker_gap, hget, hm, hgap]
    · obtain ⟨e, hhead, hee, hord, hgap⟩ := ih cs csl (i + 1) hdrop2 (by omega)
      have hunfold : sectionsAux (l :: ls) cs csl i = sectionsAux ls cs csl (i + 1) := by
        simp [sectionsAux, hm]
      rw [hunfold]
      exact ⟨e, hhead, by omega, hord, hgap⟩

/-- C3 (amended): for every non-empty stream the returned sections appear
in strict start order, and the end line of each section is exactly ONE
LESS than the start line of the next; the line at that end index is the
phase-marker line, excluded as content from the section it ends and from
the section it begins.  (The claim as stated — end equal to the next
start — is refuted by `spec_c3_cex_end_is_not_next_start`.) -/
theorem spec_c3_amended_marker_gap (lines : List Line) (ss : List GSection)
    (h : get_gcode_sections lines = some ss) :
    sec_starts_ordered ss = true ∧ sec_marker_gap lines ss = true := by
  cases lines with
  | nil => simp [get_gcode_sections] at h
  | cons l ls =>
    have h2 : ss = sectionsAux (l :: ls) (strL "Header") 0 0 := by
      have h3 := h
      simp only [get_gcode_sections, Option.some.injEq] at h3
      exact h3.symm
    obtain ⟨e, _, _, hord, hgap⟩ :=
      sectionsAux_invariant (l :: ls) (l :: ls) (strL "Header") 0 0 rfl (le_refl 0)
    rw [h2]
    exact ⟨hord, hgap⟩

/-- Counterexample for C3 as stated: on a three-line stream with one
marker, the indexer returns sections (Header, 0, 1) and (Foo, 2, 2), whose
adjacent end and start lines differ (1 versus 2) — the marker line sits
between them — so the sections do not satisfy the claimed
end-equals-next-start partition property. -/
theorem spec_c3_cex_end_is_not_next_start :
    get_gcode_sections linesABF = some sectionsABF ∧
    sec_ends_meet_starts sectionsABF = false := by
  refine ⟨by decide, by decide⟩

/-- Witness for C3 (amended) at the concrete three-line stream. -/
theorem spec_c3_witness :
    get_gcode_sections linesABF = some sectionsABF ∧
    sec_starts_ordered sectionsABF = true ∧
    sec_marker_gap linesABF sectionsABF = true :=
  ⟨ by decide,
    (spec_c3_amended_marker_gap linesABF sectionsABF (by decide)).1,
    (spec_c3_amended_marker_gap linesABF sectionsABF (by decide)).2 ⟩

/-- Unfolding of the specification-side selection over a cons cell: the
head record is selected exactly when it is a coordinate record whose
updated current tool matches, and the rest is the selection over the tail
with the updated current tool. -/
theorem selected_coord_lines_cons (tool : Line) (ct : Option Line) (l : Line) (ls : List Line) :
    selected_coord_lines tool ct (l :: ls) =
      (if isCoordLine (pystrip l) && (active_tool_step ct l == some tool)
       then [ pystrip l ] else [])
        ++ selected_coord_lines tool (active_tool_step ct l) ls := by
  unfold selected_coord_lines
  rw [List.length_cons, List.range_succ_eq_map]
  have hfun : ((fun i =>
      match (l :: ls).get? i with
      | none => none
      | some l2 =>
        if isCoordLine (pystrip l2) &&
            (((l :: ls).take (i + 1)).foldl active_tool_step ct == some tool)
        then some (pystrip l2) else none) ∘ Nat.succ) =
      (fun i =>
      match ls.get? i with
      | none => none
      | some l2 =>
        if isCoordLine (pystrip l2) &&
            ((ls.take (i + 1)).foldl active_tool_step (active_tool_step ct l) == some tool)
        then some (pystrip l2) else none) := funext fun i => rfl
  by_cases hc : (isCoordLine (pystrip l) && (active_tool_step ct l == some tool)) = true
  · rw [List.filterMap_cons_some (show _ = some (pystrip l) by
      show (if isCoordLine (pystrip l) && (active_tool_step ct l == some tool)
        then some (pystrip l) else none) = some (pystrip l)
      rw [if_pos hc])]
    rw [List.filterMap_map, hfun, if_pos hc]
    rfl
  · rw [List.filterMap_cons_none (show _ = none by
      show (if isCoordLine (pystrip l) && (active_tool_step ct l == some tool)
        then some (pystrip l) else none) = none
      rw [if_neg hc])]
    rw [List.filterMap_map, hfun, if_neg hc]
    rfl

/-- The parser loop agrees, for every starting current tool, with
conversion of the specification-side selection. -/
theorem parse_drill_aux_eq_spec (tool : Line) :
    ∀ (ls : List Line) (ct : Option Line),
      parse_drill_aux tool ls ct = mapExcept coordOf (selected_coord_lines tool ct ls) := by
  intro ls
  induction ls with
  | nil => intro ct; rfl
  | cons l ls ih =>
    intro ct
    rw [selected_coord_lines_cons]
    by_cases hc : (isCoordLine (pystrip l) && (active_tool_step ct l == some tool)) = true
    · rw [if_pos hc]
      show (if isCoordLine (pystrip l) &&
          ((if isToolSelLine (pystrip l) then some (pystrip l) else ct) == some tool) then
        match coordOf (pystrip l) with
        | .error e => .error e
        | .ok p =>
          match parse_drill_aux tool ls
              (if isToolSelLine (pystrip l) then some (pystrip l) else ct) with
          | .error e => .error e
          | .ok rest => .ok (p :: rest)
        else parse_drill_aux tool ls
          (if isToolSelLine (pystrip l) then some (pystrip l) else ct)) = _
      rw [show (if isToolSelLine (pystrip l) then some (pystrip l) else ct) =
        active_tool_step ct l from rfl]
      rw [if_pos hc, ih (active_tool_step ct l)]
      show _ = mapExcept coordOf (pystrip l :: selected_coord_lines tool (active_tool_step ct l) ls)
      cases hco : coordOf (pystrip l) with
      | error e => simp [mapExcept, hco]
      | ok p =>
        cases hrest : mapExcept coordOf (selected_coord_lines tool (active_tool_step ct l) ls) with
        | error e => simp [mapExcept, hco, hrest]
        | ok bs => simp [mapExcept, hco, hrest]
    · rw [if_neg hc]
      show (if isCoordLine (pystrip l) &&
          ((if isToolSelLine (pystrip l) then some (pystrip l) else ct) == some tool) then
        match coordOf (pystrip l) with
        | .error e => .error e
        | .ok p =>
          match parse_drill_aux tool ls
              (if isToolSelLine (pystrip l) then some (pystrip l) else ct) with
          | .error e => .error e
          | .ok rest => .ok (p :: rest)
        else parse_drill_aux tool ls
          (if isToolSelLine (pystrip l) then some (pystrip l) else ct)) = _
      rw [show (if isToolSelLine (pystrip l) then some (pystrip l) else ct) =
        active_tool_step ct l from rfl]
      rw [if_neg hc, ih (active_tool_step ct l)]
      rfl

/-- C7: for every drill stream and requested tool, the parser emits
exactly the conversions of the coordinate records whose active tool —
starting from no tool at all — equals the requested tool, in stream order
with no reordering and no deduplication (the selection is a filter over
the stream); in particular a coordinate record before any tool select has
active tool `none` and is never emitted. -/
theorem spec_c7_parse_exact_selection (lines : List Line) (tool : Line) :
    parse_drill_file lines tool = mapExcept coordOf (selected_coord_lines tool none lines) :=
  parse_drill_aux_eq_spec tool lines none

/-- The per-line axis scan leaves the Z component untouched when no part of
the line starts with `Z`. -/
theorem axes_update_no_z :
    ∀ (ps : List Line) (st st2 : Pose),
      (∀ p ∈ ps, startsWithL (strL "Z") p = false) →
      axes_update ps st = .ok st2 → st2.2.2 = st.2.2 := by
  intro ps
  induction ps with
  | nil =>
    intro st st2 _ h
    simp only [axes_update] at h
    cases h
    rfl
  | cons p ps ih =>
    intro st st2 hz h
    have hzp : startsWithL (strL "Z") p = false := hz p (List.mem_cons_self p ps)
    have hzs : ∀ q ∈ ps, startsWithL (strL "Z") q = false :=
      fun q hq => hz q (List.mem_cons_of_mem p hq)
    by_cases hx : startsWithL (strL "X") p = true
    · rw [show axes_update (p :: ps) st =
          (match pyFloat? (p.drop 1) with
           | none => .error "ValueError: could not convert string to float"
           | some v => axes_update ps (some v, st.2.1, st.2.2)) by
          simp [axes_update, hx]] at h
      cases hv : pyFloat? (p.drop 1) with
      | none => rw [hv] at h; cases h
      | some v =>
        rw [hv] at h
        exact ih (some v, st.2.1, st.2.2) st2 hzs h
    · by_cases hy : startsWithL (strL "Y") p = true
      · rw [show axes_update (p :: ps) st =
            (match pyFloat? (p.drop 1) with
             | none => .error "ValueError: could not convert string to float"
             | some v => axes_update ps (st.1, some v, st.2.2)) by
            simp [axes_update, hx, hy]] at h
        cases hv : pyFloat? (p.drop 1) with
        | none => rw [hv] at h; cases h
        | some v =>
          rw [hv] at h
          exact ih (st.1, some v, st.2.2) st2 hzs h
      · rw [show axes_update (p :: ps) st = axes_update ps st by
          simp [axes_update, hx, hy, hzp]] at h
        exact ih st st2 hzs h

/-- The pose scan leaves the Z component untouched when no scanned motion
line carries a `Z` part. -/
theorem get_last_coords_aux_no_z :
    ∀ (ls : List Line) (st st2 : Pose),
      (∀ l ∈ ls, line_is_motion l = true →
        ∀ p ∈ splitWsL l, startsWithL (strL "Z") p = false) →
      get_last_coords_aux ls st = .ok st2 → st2.2.2 = st.2.2 := by
  intro ls
  induction ls with
  | nil =>
    intro st st2 _ h
    simp only [get_last_coords_aux] at h
    cases h
    rfl
  | cons l ls ih =>
    intro st st2 hz h
    have hzs : ∀ l2 ∈ ls, line_is_motion l2 = true →
        ∀ p ∈ splitWsL l2, startsWithL (strL "Z") p = false :=
      fun l2 hl2 => hz l2 (List.mem_cons_of_mem l hl2)
    by_cases hm : line_is_motion l = true
    · rw [show get_last_coords_aux (l :: ls) st =
          (match axes_update (splitWsL l) st with
           | .error e => .error e
           | .ok st3 => get_last_coords_aux ls st3) by
          simp [get_last_coords_aux, hm]] at h
      cases ha : axes_update (splitWsL l) st with
      | error e => rw [ha] at h; cases h
      | ok st3 =>
        rw [ha] at h
        have h1 : st3.2.2 = st.2.2 :=
          axes_update_no_z (splitWsL l) st st3 (hz l (List.mem_cons_self l ls) hm) ha
        rw [ih st3 st2 hzs h, h1]
    · rw [show get_last_coords_aux (l :: ls) st = get_last_coords_aux ls st by
        simp [get_last_coords_aux, hm]] at h
      exact ih st st2 hzs h

/-- C10: when the head prefix contains no `G0`/`G1` motion line with a `Z`
part, the derived pose has an undefined Z, and the fill synthesizer fails
(the Python `5 + z` raises `TypeError` on `None`) instead of producing a
command sequence — for every hole list and every extrusion or retraction
setting. -/
theorem spec_c10_no_z_means_no_fill (lines : List Line) (holes : List (ℚ × ℚ))
    (ea ra : ℚ) (st : Pose)
    (hok : get_last_coords lines = .ok st)
    (hnoz : ∀ l ∈ lines, line_is_motion l = true →
      ∀ p ∈ splitWsL l, startsWithL (strL "Z") p = false) :
    st.2.2 = none ∧ generate_gcode_for_holes holes st ea ra = none := by
  have hz : st.2.2 = none :=
    get_last_coords_aux_no_z lines (none, none, none) st hnoz hok
  refine ⟨hz, ?_⟩
  simp [generate_gcode_for_holes, hz]

/-- Witness for C10 at a concrete one-line head whose motion line carries
no Z part. -/
theorem spec_c10_witness :
    get_last_coords [ strL "G1 E5 F4200" ] = .ok (none, none, none) ∧
    (∀ l ∈ [ strL "G1 E5 F4200" ], line_is_motion l = true →
      ∀ p ∈ splitWsL l, startsWithL (strL "Z") p = false) ∧
    generate_gcode_for_holes [ ((0 : ℚ), (0 : ℚ)) ] (none, none, none) 1 1 = none :=
  ⟨ rfl, by decide,
    (spec_c10_no_z_means_no_fill [ strL "G1 E5 F4200" ] [ ((0 : ℚ), (0 : ℚ)) ] 1 1
      (none, none, none) rfl (by decide)).2 ⟩
